import Mathlib

/-
Verification development for code_lens_llm.py: a shallow embedding of the
signature renderer (get_function_signature), the module extractor and the
empty-node pruning pass (extract_signatures_with_ast), and the per-codebase
aggregation loop (extract_signatures_with_ast_method), together with theorems
settling the specified properties.

Conventions of the embedding:
- A Python expression is observed by the code only through ast.unparse inside
  a try/except, so it is modelled by the outcome of that call: some text, or
  none when unparse raises.
- Python dicts with string keys are modelled as association lists with unique
  keys in insertion order; insertion over an existing key overwrites in place
  (keeps the original position), matching dict semantics.
- A dict field that may be deleted is an Option: none means the key is absent.
- ast.parse over a file is modelled by PyFile.parseResult: none when parsing
  raises (SyntaxError or any other exception), some body otherwise.
- ast.get_docstring results are modelled as Option String fields on the nodes.
-/

/-- Observable behaviour of a Python expression node under ast.unparse:
some text on success, none when unparse raises. -/
structure PyExpr where
  unparseText : Option String
deriving DecidableEq, Repr

/-- An ast.arg node: parameter name plus optional annotation expression. -/
structure PyArg where
  arg : String
  annot : Option PyExpr
deriving DecidableEq, Repr

/-- An ast.arguments node, with the CPython field layout. -/
structure PyArguments where
  posonlyargs : List PyArg
  args : List PyArg
  vararg : Option PyArg
  kwonlyargs : List PyArg
  kw_defaults : List (Option PyExpr)
  kwarg : Option PyArg
  defaults : List PyExpr
deriving DecidableEq, Repr

/-- A FunctionDef / AsyncFunctionDef node as consumed by the script:
name, arguments, optional return annotation, and the ast.get_docstring
result for its body. -/
structure FunctionDef where
  name : String
  args : PyArguments
  returns : Option PyExpr
  docstring : Option String
deriving DecidableEq, Repr

/-- Module- and class-body statements, at the granularity the extractor
distinguishes them.  Bodies of functions and classes are carried so that the
shallow two-level traversal of the extractor can be stated. -/
inductive Stmt where
  | functionDef (f : FunctionDef) (body : List Stmt)
  | asyncFunctionDef (f : FunctionDef) (body : List Stmt)
  | classDef (name : String) (docstring : Option String) (body : List Stmt)
  | other
deriving Repr

/-- A source file as seen by extract_signatures_with_ast: the outcome of
ast.parse on its text (none models SyntaxError or any other parse failure). -/
structure PyFile where
  parseResult : Option (List Stmt)

/-- The try/except around ast.unparse: on failure the placeholder text is
substituted (source lines 140-143 and the analogous handlers). -/
def unparseOr (e : PyExpr) : String :=
  match e.unparseText with
  | some s => s
  | none => "..."

/-- The conditional annotation suffix appended to a rendered parameter
(source lines 146-151 and the vararg/kwarg analogues). -/
def annotSuffix (arg : PyArg) : String :=
  match arg.annot with
  | some ann => ": " ++ unparseOr ann
  | none => ""

/-- Python's enumerate starting at index n. -/
def enumerateFrom : Nat → List α → List (Nat × α)
  | _, [] => []
  | n, x :: xs => (n, x) :: enumerateFrom (n + 1) xs

/-- Python's enumerate. -/
def enumerate (l : List α) : List (Nat × α) := enumerateFrom 0 l

/-- The defaults dict of get_function_signature (source lines 134-135):
keys are len(args.args) - len(args.defaults) + i, which can be negative,
hence Int keys. -/
def defaultsAList (a : PyArguments) : List (Int × PyExpr) :=
  (enumerate a.defaults).map
    (fun p => ((a.args.length : Int) - (a.defaults.length : Int) + (p.1 : Int), p.2))

/-- Lookup in an Int-keyed dict (the `i in defaults` test plus `defaults[i]`). -/
def dictLookupInt (d : List (Int × PyExpr)) (k : Int) : Option PyExpr :=
  (d.find? (fun p => p.1 == k)).map Prod.snd

/-- One iteration of the positional-parameter loop of get_function_signature
(source lines 136-152): name, then the default suffix when the loop index is a
key of the defaults dict, then the annotation suffix. -/
def renderPosArg (a : PyArguments) (i : Nat) (arg : PyArg) : String :=
  let arg_str := arg.arg
  let arg_str :=
    match dictLookupInt (defaultsAList a) (i : Int) with
    | some d => arg_str ++ "=" ++ unparseOr d
    | none => arg_str
  arg_str ++ annotSuffix arg

/-- get_function_signature (source lines 129-181): renders the positional
parameters with defaults and annotations, then *vararg, then **kwarg,
comma-joined in parentheses, then the return annotation, then the async
prefix. -/
def get_function_signature (func_node : FunctionDef) (is_async : Bool) : String :=
  let args := (enumerate func_node.args.args).map
    (fun p => renderPosArg func_node.args p.1 p.2)
  let args :=
    match func_node.args.vararg with
    | some v => args ++ ["*" ++ v.arg ++ annotSuffix v]
    | none => args
  let args :=
    match func_node.args.kwarg with
    | some kw => args ++ ["**" ++ kw.arg ++ annotSuffix kw]
    | none => args
  let signature := "(" ++ String.intercalate ", " args ++ ")"
  let signature :=
    match func_node.returns with
    | some r => signature ++ " -> " ++ unparseOr r
    | none => signature
  if is_async then "async " ++ signature else signature

/-- Insertion into a string-keyed dict: overwriting an existing key keeps its
position, a fresh key is appended, as for Python dicts. -/
def dictInsert (d : List (String × α)) (k : String) (v : α) : List (String × α) :=
  if d.any (fun p => p.1 == k) then d.map (fun p => if p.1 == k then (k, v) else p)
  else d ++ [(k, v)]

/-- Lookup in a string-keyed dict. -/
def dictLookup (d : List (String × α)) (k : String) : Option α :=
  (d.find? (fun p => p.1 == k)).map Prod.snd

/-- The per-callable dict (func_info / method_info): the signature key is set
at construction, the docstring key only when docstring inclusion is on, and
either may be absent after pruning.  none models an absent key. -/
structure FuncInfo where
  signature : Option String
  docstring : Option String
deriving DecidableEq, Repr

/-- The per-class dict (class_entry): a methods dict and an optional
docstring, each key possibly absent after pruning. -/
structure ClassEntry where
  methods : Option (List (String × FuncInfo))
  docstring : Option String
deriving DecidableEq, Repr

/-- The module_info dict: functions and classes keys, each possibly deleted
by the pruning pass. -/
structure ModuleInfo where
  functions : Option (List (String × FuncInfo))
  classes : Option (List (String × ClassEntry))
deriving DecidableEq, Repr

/-- The empty dict returned for unparseable files. -/
def ModuleInfo.empty : ModuleInfo := { functions := none, classes := none }

/-- Python truthiness of the module_info dict: it is truthy exactly when it
has at least one key. -/
def ModuleInfo.isTruthy (m : ModuleInfo) : Bool :=
  m.functions.isSome || m.classes.isSome

/-- Construction of func_info / method_info (source lines 55-58 etc.):
the signature is always stored; the docstring key is added only when
inclusion is on, defaulted to the empty string when get_docstring gave
nothing. -/
def mkCallableInfo (sig : String) (doc : Option String)
    (include_docstrings : Bool) : FuncInfo :=
  { signature := some sig,
    docstring := if include_docstrings then some (doc.getD "") else none }

/-- One iteration of the class-body loop (source lines 70-84): only direct
FunctionDef / AsyncFunctionDef children contribute; everything else is
skipped. -/
def classStep (include_docstrings : Bool)
    (class_info : List (String × FuncInfo)) (class_item : Stmt) :
    List (String × FuncInfo) :=
  match class_item with
  | .functionDef f _ =>
      dictInsert class_info f.name
        (mkCallableInfo (get_function_signature f false) f.docstring include_docstrings)
  | .asyncFunctionDef f _ =>
      dictInsert class_info f.name
        (mkCallableInfo (get_function_signature f true) f.docstring include_docstrings)
  | _ => class_info

/-- The class_info dict built from a class body (source lines 68-84). -/
def buildClassInfo (cbody : List Stmt) (include_docstrings : Bool) :
    List (String × FuncInfo) :=
  cbody.foldl (classStep include_docstrings) []

/-- One iteration of the top-level loop of extract_signatures_with_ast
(source lines 52-88): module-level functions, async functions, and classes
are recorded; every other statement kind is skipped. -/
def moduleStep (include_docstrings : Bool)
    (acc : List (String × FuncInfo) × List (String × ClassEntry)) (item : Stmt) :
    List (String × FuncInfo) × List (String × ClassEntry) :=
  match item with
  | .functionDef f _ =>
      (dictInsert acc.1 f.name
        (mkCallableInfo (get_function_signature f false) f.docstring include_docstrings),
       acc.2)
  | .asyncFunctionDef f _ =>
      (dictInsert acc.1 f.name
        (mkCallableInfo (get_function_signature f true) f.docstring include_docstrings),
       acc.2)
  | .classDef cname cdoc cbody =>
      (acc.1,
       dictInsert acc.2 cname
         { methods := some (buildClassInfo cbody include_docstrings),
           docstring := if include_docstrings then some (cdoc.getD "") else none })
  | .other => acc

/-- The functions and classes dicts of module_info after the traversal loop
(source lines 50-88), before pruning. -/
def buildModuleBody (body : List Stmt) (include_docstrings : Bool) :
    List (String × FuncInfo) × List (String × ClassEntry) :=
  body.foldl (moduleStep include_docstrings) ([], [])

/-- The repeated docstring-cleanup step (source lines 99-100, 108-109,
113-114): a docstring key holding the empty string is deleted, an absent key
stays absent. -/
def pruneDocstring : Option String → Option String
  | some s => if s = "" then none else some s
  | none => none

/-- Docstring cleanup on one callable dict (source lines 99-100, 113-114). -/
def pruneFuncInfo (fi : FuncInfo) : FuncInfo :=
  { fi with docstring := pruneDocstring fi.docstring }

/-- Python emptiness of a callable dict: no keys left. -/
def FuncInfo.isEmpty (fi : FuncInfo) : Bool :=
  fi.signature.isNone && fi.docstring.isNone

/-- The cleanup loop over a functions or methods dict (source lines 98-103
and 112-117): clean each entry's docstring, then drop entries whose dict
became empty. -/
def pruneFunctions (fs : List (String × FuncInfo)) : List (String × FuncInfo) :=
  (fs.map (fun p => (p.1, pruneFuncInfo p.2))).filter (fun p => !(FuncInfo.isEmpty p.2))

/-- Cleanup of one class dict (source lines 108-121): delete an empty
docstring, clean the methods dict, delete the methods key if it became
empty. -/
def pruneClassEntry (c : ClassEntry) : ClassEntry :=
  let docstring := pruneDocstring c.docstring
  let methods :=
    match c.methods with
    | some ms => some (pruneFunctions ms)
    | none => none
  let methods :=
    match methods with
    | some ms => if ms.isEmpty then none else some ms
    | none => none
  { methods := methods, docstring := docstring }

/-- Python emptiness of a class dict: no keys left. -/
def ClassEntry.isEmpty (c : ClassEntry) : Bool :=
  c.methods.isNone && c.docstring.isNone

/-- The cleanup loop over the classes dict (source lines 106-125): clean each
class entry, then drop classes whose dict became empty. -/
def pruneClasses (cs : List (String × ClassEntry)) : List (String × ClassEntry) :=
  (cs.map (fun p => (p.1, pruneClassEntry p.2))).filter (fun p => !(ClassEntry.isEmpty p.2))

/-- The pruning block of extract_signatures_with_ast (source lines 90-125)
on a module_info whose functions and classes keys are both present: first
the top-level dicts are deleted when (currently) empty, then the per-entry
cleanup loops run over whatever keys survived via .get(..., {}). -/
def pruneCore (fs : List (String × FuncInfo)) (cs : List (String × ClassEntry)) :
    ModuleInfo :=
  let functions := if fs.isEmpty then none else some fs
  let classes := if cs.isEmpty then none else some cs
  { functions := functions.map pruneFunctions,
    classes := classes.map pruneClasses }

/-- The pruning pass applied to an arbitrary module_info dict: lines 92 and
94 index module_info['functions'] and module_info['classes'] unguarded, so
the pass raises KeyError (modelled as none) when either key is absent. -/
def pruneModuleInfo (m : ModuleInfo) : Option ModuleInfo :=
  match m.functions, m.classes with
  | some fs, some cs => some (pruneCore fs cs)
  | _, _ => none

/-- extract_signatures_with_ast (source lines 35-127) on one file: an empty
dict on parse failure; otherwise the traversal result, pruned when
REPORT_EMPTY_ITEMS is set.  The two module-level toggles are passed as the
explicit configuration the spec requires. -/
def extract_signatures_with_ast (file : PyFile)
    (include_docstrings : Bool) (report_empty_items : Bool) : ModuleInfo :=
  match file.parseResult with
  | none => ModuleInfo.empty
  | some body =>
      let built := buildModuleBody body include_docstrings
      if report_empty_items then pruneCore built.1 built.2
      else { functions := some built.1, classes := some built.2 }

/-- One iteration of extract_signatures_with_ast_method's loop (source lines
189-193): the file's entry is recorded when its dict is truthy or pruning is
off.  Files are given with their root-relative paths. -/
def methodStep (include_docstrings report_empty_items : Bool)
    (result : List (String × ModuleInfo)) (pf : String × PyFile) :
    List (String × ModuleInfo) :=
  let signatures := extract_signatures_with_ast pf.2 include_docstrings report_empty_items
  if signatures.isTruthy || !report_empty_items then dictInsert result pf.1 signatures
  else result

/-- extract_signatures_with_ast_method (source lines 183-194): fold the
per-file extraction over the file list, building the CodebaseReport dict. -/
def extract_signatures_with_ast_method (python_files : List (String × PyFile))
    (include_docstrings report_empty_items : Bool) : List (String × ModuleInfo) :=
  python_files.foldl (methodStep include_docstrings report_empty_items) []

/-- Cleanliness of a callable dict as the spec's pruning invariant demands:
no empty-string docstring, and the dict is not empty. -/
def FuncInfo.clean (fi : FuncInfo) : Bool :=
  !(fi.docstring == some "") && !fi.isEmpty

/-- Cleanliness of a class dict: no empty-string docstring, no empty methods
dict, the dict itself nonempty, and every method entry clean. -/
def ClassEntry.clean (c : ClassEntry) : Bool :=
  !(c.docstring == some "") && !(c.methods == some []) && !c.isEmpty &&
    (c.methods.getD []).all (fun q => q.2.clean)

/-- The spec's pruning invariant on a module_info dict: no mapping value is
an empty container and no docstring field holds the empty string, at every
level. -/
def ModuleInfo.noEmptyNodes (m : ModuleInfo) : Bool :=
  !(m.functions == some []) && !(m.classes == some []) &&
    (m.functions.getD []).all (fun p => p.2.clean) &&
    (m.classes.getD []).all (fun p => p.2.clean)

/-- Deletion of the top-level keys of a pruned module_info that are present
but hold an empty dict (what a second run of the pruning pass adds). -/
def dropEmptyTop (m : ModuleInfo) : ModuleInfo :=
  { functions :=
      match m.functions with
      | some l => if l.isEmpty then none else some l
      | none => none,
    classes :=
      match m.classes with
      | some l => if l.isEmpty then none else some l
      | none => none }

/-- Modelled from the spec: the trailing-default rule of the spec, stated
over the combined positional parameter list (positional-only parameters
followed by plain ones).  With N combined positional parameters and D
declared defaults, default j binds to the combined parameter at index
N - D + j; this gives the default expression the rule assigns to the plain
parameter at plain index i (combined index posonlyargs.length + i). -/
def specTrailingDefault (a : PyArguments) (i : Nat) : Option PyExpr :=
  let total := a.posonlyargs.length + a.args.length
  if total - a.defaults.length ≤ a.posonlyargs.length + i then
    a.defaults[a.posonlyargs.length + i - (total - a.defaults.length)]?
  else none

/-- Replacement of an expression by one whose unparse yields exactly the text
the renderer would print for it; an unrenderable expression becomes the
placeholder literal. -/
def sanitizeExpr (e : PyExpr) : PyExpr := { unparseText := some (unparseOr e) }

/-- sanitizeExpr applied to a parameter's annotation. -/
def sanitizeArg (arg : PyArg) : PyArg :=
  { arg with annot := arg.annot.map sanitizeExpr }

/-- sanitizeExpr applied throughout an arguments node. -/
def sanitizeArguments (a : PyArguments) : PyArguments :=
  { posonlyargs := a.posonlyargs.map sanitizeArg,
    args := a.args.map sanitizeArg,
    vararg := a.vararg.map sanitizeArg,
    kwonlyargs := a.kwonlyargs.map sanitizeArg,
    kw_defaults := a.kw_defaults.map (Option.map sanitizeExpr),
    kwarg := a.kwarg.map sanitizeArg,
    defaults := a.defaults.map sanitizeExpr }

/-- sanitizeExpr applied throughout a callable node. -/
def sanitizeFunctionDef (f : FunctionDef) : FunctionDef :=
  { f with args := sanitizeArguments f.args, returns := f.returns.map sanitizeExpr }

/-- The part of a class body the extractor can see: direct function and
async-function children, with their own bodies discarded. -/
def shallowClassBody : List Stmt → List Stmt
  | [] => []
  | .functionDef f _ :: rest => .functionDef f [] :: shallowClassBody rest
  | .asyncFunctionDef f _ :: rest => .asyncFunctionDef f [] :: shallowClassBody rest
  | _ :: rest => shallowClassBody rest

/-- The part of a module body the extractor can see: top-level functions,
async functions, and classes reduced to the visible part of their bodies;
function bodies and all other statement kinds are discarded. -/
def shallowProjection : List Stmt → List Stmt
  | [] => []
  | .functionDef f _ :: rest => .functionDef f [] :: shallowProjection rest
  | .asyncFunctionDef f _ :: rest => .asyncFunctionDef f [] :: shallowProjection rest
  | .classDef n d cbody :: rest =>
      .classDef n d (shallowClassBody cbody) :: shallowProjection rest
  | .other :: rest => shallowProjection rest

/- Helper lemmas. -/

theorem dictLookupInt_enumerateFrom (l : List PyExpr) (base : Int) (n : Nat) (k : Int) :
    dictLookupInt ((enumerateFrom n l).map (fun p => (base + (p.1 : Int), p.2))) k =
      if base + n ≤ k ∧ k < base + n + l.length then l[(k - base - n).toNat]? else none := by
  induction l generalizing n with
  | nil =>
      simp only [enumerateFrom, List.map_nil, dictLookupInt, List.find?_nil, Option.map_none,
        List.length_nil]
      split_ifs with h
      · omega
      · rfl
  | cons x xs ih =>
      simp only [enumerateFrom, List.map_cons, dictLookupInt, List.length_cons]
      by_cases hk : base + (n : Int) = k
      · rw [List.find?_cons_of_pos _ (by simpa using hk)]
        split_ifs with h1
        · have h0 : (k - base - n).toNat = 0 := by omega
          simp [h0]
        · exfalso
          push_cast at h1
          omega
      · rw [List.find?_cons_of_neg _ (by simpa using hk)]
        have htail := ih (n + 1)
        simp only [dictLookupInt] at htail
        rw [htail]
        split_ifs with ha hb hb
        · have h3 : (k - base - n).toNat = (k - base - ((n : Int) + 1)).toNat + 1 := by
            push_cast at ha hb ⊢
            omega
          push_cast
          push_cast at h3
          rw [h3, List.getElem?_cons_succ]
        · exfalso
          push_cast at ha hb
          omega
        · exfalso
          push_cast at ha hb
          omega
        · rfl

theorem dictLookupInt_defaultsAList (a : PyArguments) (i : Nat) :
    dictLookupInt (defaultsAList a) (i : Int) =
      if a.args.length ≤ i + a.defaults.length ∧ i < a.args.length then
        a.defaults[i + a.defaults.length - a.args.length]?
      else none := by
  have h := dictLookupInt_enumerateFrom a.defaults
    ((a.args.length : Int) - (a.defaults.length : Int)) 0 (i : Int)
  rw [show defaultsAList a =
      (enumerateFrom 0 a.defaults).map
        (fun p => ((a.args.length : Int) - (a.defaults.length : Int) + (p.1 : Int), p.2))
    from rfl]
  rw [h]
  by_cases h1 : a.args.length ≤ i + a.defaults.length ∧ i < a.args.length
  · have h2 : (a.args.length : Int) - (a.defaults.length : Int) + (0 : Nat) ≤ (i : Int) ∧
        (i : Int) < (a.args.length : Int) - (a.defaults.length : Int) + (0 : Nat) +
          a.defaults.length := by
      push_cast
      omega
    rw [if_pos h2, if_pos h1]
    congr 1
    push_cast
    omega
  · have h2 : ¬((a.args.length : Int) - (a.defaults.length : Int) + (0 : Nat) ≤ (i : Int) ∧
        (i : Int) < (a.args.length : Int) - (a.defaults.length : Int) + (0 : Nat) +
          a.defaults.length) := by
      push_cast
      omega
    rw [if_neg h2, if_neg h1]

/-- C3: for a valid callable with P positional parameters and D declared
defaults, D ≤ P, the renderer leaves every positional parameter with index
below P - D without a default, and attaches default j (0-indexed) to the
positional parameter at index P - D + j. -/
theorem renderPosArg_trailing_defaults (a : PyArguments) (arg : PyArg) (j : Nat)
    (hD : a.defaults.length ≤ a.args.length) :
    (j < a.args.length - a.defaults.length →
      renderPosArg a j arg = arg.arg ++ annotSuffix arg) ∧
    (∀ d, a.defaults[j]? = some d →
      renderPosArg a (a.args.length - a.defaults.length + j) arg =
        arg.arg ++ "=" ++ unparseOr d ++ annotSuffix arg) := by
  constructor
  · intro hj
    unfold renderPosArg
    rw [dictLookupInt_defaultsAList]
    rw [if_neg (by omega)]
  · intro d hd
    have hjD : j < a.defaults.length := by
      by_contra hcon
      rw [List.getElem?_eq_none (by omega)] at hd
      cases hd
    unfold renderPosArg
    rw [dictLookupInt_defaultsAList]
    rw [if_pos (by omega)]
    have hidx : a.args.length - a.defaults.length + j + a.defaults.length - a.args.length
        = j := by omega
    rw [hidx, hd]

/-- C3 witness: for def f(a, b, c=2), parameter a (index 0 < P - D = 2) gets
no default and parameter c (index P - D + 0 = 2) gets default 2. -/
theorem renderPosArg_trailing_defaults_witness :
    (⟨[], [⟨"a", none⟩, ⟨"b", none⟩, ⟨"c", none⟩], none, [], [], none,
        [⟨some "2"⟩]⟩ : PyArguments).defaults.length ≤
      (⟨[], [⟨"a", none⟩, ⟨"b", none⟩, ⟨"c", none⟩], none, [], [], none,
        [⟨some "2"⟩]⟩ : PyArguments).args.length ∧
    renderPosArg ⟨[], [⟨"a", none⟩, ⟨"b", none⟩, ⟨"c", none⟩], none, [], [], none,
        [⟨some "2"⟩]⟩ 0 ⟨"a", none⟩ = "a" ∧
    renderPosArg ⟨[], [⟨"a", none⟩, ⟨"b", none⟩, ⟨"c", none⟩], none, [], [], none,
        [⟨some "2"⟩]⟩ 2 ⟨"c", none⟩ = "c=2" := by
  have h := renderPosArg_trailing_defaults
    ⟨[], [⟨"a", none⟩, ⟨"b", none⟩, ⟨"c", none⟩], none, [], [], none, [⟨some "2"⟩]⟩
    ⟨"a", none⟩ 0 (by decide)
  have h2 := renderPosArg_trailing_defaults
    ⟨[], [⟨"a", none⟩, ⟨"b", none⟩, ⟨"c", none⟩], none, [], [], none, [⟨some "2"⟩]⟩
    ⟨"c", none⟩ 0 (by decide)
  refine ⟨by decide, ?_, ?_⟩
  · exact (h.1 (by decide)).trans (by decide)
  · exact (h2.2 ⟨some "2"⟩ rfl).trans (by decide)

/-- C4: a positional parameter carrying both a default (under the renderer's
defaults table) and an annotation renders with the annotation suffix after
the default suffix: name=default: Type. -/
theorem renderPosArg_default_then_annot (a : PyArguments) (i : Nat) (arg : PyArg)
    (d ann : PyExpr) (hd : dictLookupInt (defaultsAList a) (i : Int) = some d)
    (hann : arg.annot = some ann) :
    renderPosArg a i arg =
      arg.arg ++ "=" ++ unparseOr d ++ (": " ++ unparseOr ann) := by
  unfold renderPosArg annotSuffix
  rw [hd, hann]

/-- C4 witness: def f(x: int = 5) renders the parameter as x=5: int. -/
theorem renderPosArg_default_then_annot_witness :
    dictLookupInt (defaultsAList ⟨[], [⟨"x", some ⟨some "int"⟩⟩], none, [], [], none,
        [⟨some "5"⟩]⟩) ((0 : Nat) : Int) = some ⟨some "5"⟩ ∧
    (⟨"x", some ⟨some "int"⟩⟩ : PyArg).annot = some ⟨some "int"⟩ ∧
    renderPosArg ⟨[], [⟨"x", some ⟨some "int"⟩⟩], none, [], [], none, [⟨some "5"⟩]⟩ 0
      ⟨"x", some ⟨some "int"⟩⟩ = "x=5: int" := by
  refine ⟨by decide, rfl, ?_⟩
  exact (renderPosArg_default_then_annot _ 0 _ ⟨some "5"⟩ ⟨some "int"⟩ (by decide) rfl).trans
    (by decide)

/-- C7: with a variadic positional and a variadic keyword parameter present,
the rendered signature is the comma-joined parenthesized list of the
positional entries followed by *name and then **name (each with its optional
annotation suffix), plus return annotation and async prefix; in particular
def h(*args, **kwargs) renders exactly as (*args, **kwargs). -/
theorem variadic_params_render (f : FunctionDef) (b : Bool) (v k : PyArg)
    (hv : f.args.vararg = some v) (hk : f.args.kwarg = some k) :
    get_function_signature f b =
      (if b then "async " else "") ++
        ("(" ++ String.intercalate ", "
            ((enumerate f.args.args).map (fun p => renderPosArg f.args p.1 p.2) ++
              ["*" ++ v.arg ++ annotSuffix v, "**" ++ k.arg ++ annotSuffix k]) ++ ")" ++
          (match f.returns with
           | some r => " -> " ++ unparseOr r
           | none => "")) ∧
    get_function_signature ⟨"h", ⟨[], [], some ⟨"args", none⟩, [], [], some ⟨"kwargs", none⟩,
        []⟩, none, none⟩ false = "(*args, **kwargs)" := by
  constructor
  · simp only [get_function_signature, hv, hk, List.append_assoc, List.singleton_append]
    cases hr : f.returns with
    | none => cases b <;> simp [String.empty_append, String.append_assoc]
    | some r =>
        cases b <;> simp [String.empty_append, String.append_assoc] <;>
          rw [show (") -> " : String) = ")" ++ " -> " from rfl, String.append_assoc]
  · rfl

/-- C7 witness: instantiated at def h(*args, **kwargs). -/
theorem variadic_params_render_witness :
    (⟨[], [], some ⟨"args", none⟩, [], [], some ⟨"kwargs", none⟩, []⟩ :
        PyArguments).vararg = some ⟨"args", none⟩ ∧
    (⟨[], [], some ⟨"args", none⟩, [], [], some ⟨"kwargs", none⟩, []⟩ :
        PyArguments).kwarg = some ⟨"kwargs", none⟩ ∧
    get_function_signature ⟨"h", ⟨[], [], some ⟨"args", none⟩, [], [], some ⟨"kwargs", none⟩,
        []⟩, none, none⟩ false = "(*args, **kwargs)" :=
  ⟨rfl, rfl,
    (variadic_params_render
      ⟨"h", ⟨[], [], some ⟨"args", none⟩, [], [], some ⟨"kwargs", none⟩, []⟩, none, none⟩
      false ⟨"args", none⟩ ⟨"kwargs", none⟩ rfl rfl).2⟩

/-- C9: keyword-only parameters never appear in the rendered signature: the
renderer is invariant under the kwonlyargs and kw_defaults fields, and a
callable declared as def f(a, *, b) renders exactly as (a). -/
theorem kwonly_params_dropped (f : FunctionDef) (b : Bool) (kos : List PyArg)
    (kds : List (Option PyExpr)) :
    get_function_signature
        { f with args := { f.args with kwonlyargs := kos, kw_defaults := kds } } b =
      get_function_signature f b ∧
    get_function_signature ⟨"f", ⟨[], [⟨"a", none⟩], none, [⟨"b", none⟩], [none], none, []⟩,
        none, none⟩ false = "(a)" :=
  ⟨rfl, rfl⟩

theorem unparseOr_sanitizeExpr (e : PyExpr) : unparseOr (sanitizeExpr e) = unparseOr e := rfl

theorem arg_sanitizeArg (arg : PyArg) : (sanitizeArg arg).arg = arg.arg := rfl

theorem annotSuffix_sanitizeArg (arg : PyArg) :
    annotSuffix (sanitizeArg arg) = annotSuffix arg := by
  cases h : arg.annot <;> simp [annotSuffix, sanitizeArg, h, unparseOr_sanitizeExpr]

theorem enumerateFrom_map (g : α → β) (l : List α) (n : Nat) :
    enumerateFrom n (l.map g) = (enumerateFrom n l).map (fun p => (p.1, g p.2)) := by
  induction l generalizing n with
  | nil => rfl
  | cons x xs ih => simp [enumerateFrom, ih]

theorem dictLookupInt_map_value (g : PyExpr → PyExpr) (d : List (Int × PyExpr)) (k : Int) :
    dictLookupInt (d.map (fun p => (p.1, g p.2))) k = (dictLookupInt d k).map g := by
  simp only [dictLookupInt, List.find?_map, Option.map_map]
  have hp : ((fun p => p.1 == k) ∘ fun p : Int × PyExpr => (p.1, g p.2)) =
      fun p : Int × PyExpr => p.1 == k := by
    funext p
    rfl
  have hf : (Prod.snd ∘ fun p : Int × PyExpr => (p.1, g p.2)) = (g ∘ Prod.snd) := by
    funext p
    rfl
  rw [hp, hf]

theorem defaultsAList_sanitize (a : PyArguments) :
    defaultsAList (sanitizeArguments a) =
      (defaultsAList a).map (fun p => (p.1, sanitizeExpr p.2)) := by
  show defaultsAList
      { posonlyargs := a.posonlyargs.map sanitizeArg, args := a.args.map sanitizeArg,
        vararg := a.vararg.map sanitizeArg, kwonlyargs := a.kwonlyargs.map sanitizeArg,
        kw_defaults := a.kw_defaults.map (Option.map sanitizeExpr),
        kwarg := a.kwarg.map sanitizeArg, defaults := a.defaults.map sanitizeExpr } = _
  unfold defaultsAList enumerate
  rw [enumerateFrom_map]
  simp [List.map_map, Function.comp]

theorem renderPosArg_sanitize (a : PyArguments) (i : Nat) (arg : PyArg) :
    renderPosArg (sanitizeArguments a) i (sanitizeArg arg) = renderPosArg a i arg := by
  unfold renderPosArg
  rw [defaultsAList_sanitize, dictLookupInt_map_value, annotSuffix_sanitizeArg]
  cases dictLookupInt (defaultsAList a) (i : Int) <;>
    simp [unparseOr_sanitizeExpr, arg_sanitizeArg]

/-- C8: rendering is total, and an expression whose textual reconstruction
fails contributes exactly the placeholder text: the substitution that
replaces every expression by one unparsing to the text the renderer prints
(the placeholder for failing ones) leaves the rendered signature unchanged,
and a failing expression prints as the placeholder. -/
theorem get_function_signature_placeholder (f : FunctionDef) (b : Bool) (e : PyExpr) :
    (e.unparseText = none → unparseOr e = "...") ∧
    get_function_signature (sanitizeFunctionDef f) b = get_function_signature f b := by
  constructor
  · intro h
    simp [unparseOr, h]
  · unfold get_function_signature
    have hargs : (enumerate (sanitizeFunctionDef f).args.args).map
        (fun p => renderPosArg (sanitizeFunctionDef f).args p.1 p.2) =
        (enumerate f.args.args).map (fun p => renderPosArg f.args p.1 p.2) := by
      show (enumerate (f.args.args.map sanitizeArg)).map
          (fun p => renderPosArg (sanitizeArguments f.args) p.1 p.2) = _
      unfold enumerate
      rw [enumerateFrom_map, List.map_map]
      exact List.map_congr_left (fun p _ => renderPosArg_sanitize f.args p.1 p.2)
    rw [hargs]
    have hv : (sanitizeFunctionDef f).args.vararg = f.args.vararg.map sanitizeArg := rfl
    have hk : (sanitizeFunctionDef f).args.kwarg = f.args.kwarg.map sanitizeArg := rfl
    have hr : (sanitizeFunctionDef f).returns = f.returns.map sanitizeExpr := rfl
    rw [hv, hk, hr]
    cases f.args.vararg <;> cases f.args.kwarg <;> cases f.returns <;>
      simp [annotSuffix_sanitizeArg, unparseOr_sanitizeExpr, arg_sanitizeArg]

/-- C8 witness: an unrenderable default prints as the placeholder, at
def f(x=<unrenderable>). -/
theorem get_function_signature_placeholder_witness :
    (⟨none⟩ : PyExpr).unparseText = none ∧
    unparseOr ⟨none⟩ = "..." ∧
    get_function_signature
        (sanitizeFunctionDef ⟨"f", ⟨[], [⟨"x", none⟩], none, [], [], none, [⟨none⟩]⟩,
          none, none⟩) false =
      get_function_signature ⟨"f", ⟨[], [⟨"x", none⟩], none, [], [], none, [⟨none⟩]⟩,
        none, none⟩ false := by
  have h := get_function_signature_placeholder
    ⟨"f", ⟨[], [⟨"x", none⟩], none, [], [], none, [⟨none⟩]⟩, none, none⟩ false ⟨none⟩
  exact ⟨rfl, h.1 rfl, h.2⟩

theorem foldl_classStep_shallow (incl : Bool) (cbody : List Stmt) :
    ∀ ci, (shallowClassBody cbody).foldl (classStep incl) ci =
      cbody.foldl (classStep incl) ci := by
  induction cbody with
  | nil => intro ci; rfl
  | cons c rest ih =>
      intro ci
      cases c <;> simp only [shallowClassBody, List.foldl_cons, classStep] <;> exact ih _

theorem buildClassInfo_shallow (cbody : List Stmt) (incl : Bool) :
    buildClassInfo (shallowClassBody cbody) incl = buildClassInfo cbody incl :=
  foldl_classStep_shallow incl cbody []

theorem foldl_moduleStep_shallow (incl : Bool) (body : List Stmt) :
    ∀ acc, (shallowProjection body).foldl (moduleStep incl) acc =
      body.foldl (moduleStep incl) acc := by
  induction body with
  | nil => intro acc; rfl
  | cons item rest ih =>
      intro acc
      cases item with
      | functionDef f bd => exact ih _
      | asyncFunctionDef f bd => exact ih _
      | classDef n d cbody =>
          simp only [shallowProjection, List.foldl_cons, moduleStep, buildClassInfo_shallow]
          exact ih _
      | other => exact ih _

/-- C6: the extractor sees exactly two depths: its output on a parsed module
body equals its output on the shallow projection that keeps only top-level
functions, async functions, and classes (the latter reduced to their direct
function and async-function children), discarding every other statement kind
and everything nested deeper, for either setting of the toggles. -/
theorem extract_shallow_two_level (body : List Stmt) (incl rei : Bool) :
    extract_signatures_with_ast ⟨some (shallowProjection body)⟩ incl rei =
      extract_signatures_with_ast ⟨some body⟩ incl rei := by
  simp only [extract_signatures_with_ast, buildModuleBody, foldl_moduleStep_shallow]

theorem dictLookup_dictInsert_self (d : List (String × α)) (k : String) (v : α) :
    dictLookup (dictInsert d k v) k = some v := by
  unfold dictInsert dictLookup
  by_cases h : d.any (fun p => p.1 == k)
  · rw [if_pos h]
    induction d with
    | nil => simp at h
    | cons x xs ih =>
        cases hx : (x.1 == k) with
        | true => simp [List.find?, hx]
        | false =>
            simp only [List.any_cons, hx, Bool.false_or] at h
            simpa [List.find?, hx] using ih h
  · rw [if_neg h]
    induction d with
    | nil => simp [List.find?]
    | cons x xs ih =>
        simp only [List.any_cons, Bool.or_eq_true, not_or] at h
        have hx : (x.1 == k) = false := by
          cases hxx : (x.1 == k)
          · rfl
          · exact absurd hxx h.1
        simpa [List.find?, hx, List.cons_append] using ih h.2

theorem dictLookup_dictInsert_ne (d : List (String × α)) (k k' : String) (v : α)
    (hne : k ≠ k') :
    dictLookup (dictInsert d k v) k' = dictLookup d k' := by
  have hkk' : (k == k') = false := by simpa using hne
  unfold dictInsert dictLookup
  by_cases h : d.any (fun p => p.1 == k)
  · rw [if_pos h]
    clear h
    induction d with
    | nil => rfl
    | cons x xs ih =>
        cases hx : (x.1 == k) with
        | true =>
            have hxk : x.1 = k := by simpa using hx
            have hx' : (x.1 == k') = false := by
              rw [hxk]
              exact hkk'
            simpa [List.find?, hx, hx', hkk'] using ih
        | false =>
            cases hx' : (x.1 == k') with
            | true => simp [List.find?, hx, hx']
            | false => simpa [List.find?, hx, hx'] using ih
  · rw [if_neg h]
    rw [List.find?_append]
    have hlast : List.find? (fun p => p.1 == k') [(k, v)] = none := by
      simp [List.find?, hkk']
    rw [hlast, Option.or_none]

theorem dictLookup_foldl_methodStep (incl rei : Bool) (p : String) :
    ∀ (files : List (String × PyFile)) (acc : List (String × ModuleInfo)),
      (∀ q ∈ files, q.1 ≠ p) →
      dictLookup (files.foldl (methodStep incl rei) acc) p = dictLookup acc p := by
  intro files
  induction files with
  | nil => intro acc _; rfl
  | cons x xs ih =>
      intro acc h
      rw [List.foldl_cons, ih _ (fun q hq => h q (List.mem_cons_of_mem _ hq))]
      unfold methodStep
      show dictLookup
          (if ((extract_signatures_with_ast x.2 incl rei).isTruthy || !rei) = true then
            dictInsert acc x.1 (extract_signatures_with_ast x.2 incl rei)
          else acc) p = dictLookup acc p
      split
      · exact dictLookup_dictInsert_ne _ _ _ _ (h x (List.mem_cons_self _ _))
      · rfl

/-- C5: a file whose source fails to parse yields the empty module dict; the
failure is local: with pruning on, the aggregate report over the file list
with the failing file inserted equals the report without it (remaining files
still processed, no entry contributed); with pruning off, the failing file
contributes an entry holding the empty dict. -/
theorem parse_failure_local (f : PyFile) (incl rei : Bool)
    (files1 files2 : List (String × PyFile)) (p : String)
    (hf : f.parseResult = none) :
    extract_signatures_with_ast f incl rei = ModuleInfo.empty ∧
    extract_signatures_with_ast_method (files1 ++ (p, f) :: files2) incl true =
      extract_signatures_with_ast_method (files1 ++ files2) incl true ∧
    ((∀ q ∈ files2, q.1 ≠ p) →
      dictLookup (extract_signatures_with_ast_method (files1 ++ (p, f) :: files2) incl false)
          p = some ModuleInfo.empty) := by
  have hext : ∀ r, extract_signatures_with_ast f incl r = ModuleInfo.empty := by
    intro r
    unfold extract_signatures_with_ast
    rw [hf]
  refine ⟨hext rei, ?_, ?_⟩
  · unfold extract_signatures_with_ast_method
    rw [List.foldl_append, List.foldl_append, List.foldl_cons]
    have hstep : methodStep incl true (files1.foldl (methodStep incl true) []) (p, f) =
        files1.foldl (methodStep incl true) [] := by
      unfold methodStep
      rw [hext]
      rfl
    rw [hstep]
  · intro hq
    unfold extract_signatures_with_ast_method
    rw [List.foldl_append, List.foldl_cons]
    rw [dictLookup_foldl_methodStep incl false p files2 _ hq]
    have hstep : methodStep incl false (files1.foldl (methodStep incl false) []) (p, f) =
        dictInsert (files1.foldl (methodStep incl false) []) p ModuleInfo.empty := by
      unfold methodStep
      rw [hext]
      rfl
    rw [hstep]
    exact dictLookup_dictInsert_self _ _ _

/-- C5 witness: a syntactically invalid file between two valid ones, at
concrete inputs. -/
theorem parse_failure_local_witness :
    (⟨none⟩ : PyFile).parseResult = none ∧
    extract_signatures_with_ast ⟨none⟩ true true = ModuleInfo.empty ∧
    extract_signatures_with_ast_method
        ([("a.py", ⟨some [Stmt.functionDef ⟨"f", ⟨[], [], none, [], [], none, []⟩, none,
            none⟩ []]⟩)] ++ ("bad.py", ⟨none⟩) ::
          [("b.py", ⟨some [Stmt.functionDef ⟨"g", ⟨[], [], none, [], [], none, []⟩, none,
            none⟩ []]⟩)]) true true =
      extract_signatures_with_ast_method
        ([("a.py", ⟨some [Stmt.functionDef ⟨"f", ⟨[], [], none, [], [], none, []⟩, none,
            none⟩ []]⟩)] ++
          [("b.py", ⟨some [Stmt.functionDef ⟨"g", ⟨[], [], none, [], [], none, []⟩, none,
            none⟩ []]⟩)]) true true ∧
    dictLookup (extract_signatures_with_ast_method
        ([("a.py", ⟨some [Stmt.functionDef ⟨"f", ⟨[], [], none, [], [], none, []⟩, none,
            none⟩ []]⟩)] ++ ("bad.py", ⟨none⟩) ::
          [("b.py", ⟨some [Stmt.functionDef ⟨"g", ⟨[], [], none, [], [], none, []⟩, none,
            none⟩ []]⟩)]) true false) "bad.py" = some ModuleInfo.empty := by
  have h := parse_failure_local ⟨none⟩ true true
    [("a.py", ⟨some [Stmt.functionDef ⟨"f", ⟨[], [], none, [], [], none, []⟩, none, none⟩ []]⟩)]
    [("b.py", ⟨some [Stmt.functionDef ⟨"g", ⟨[], [], none, [], [], none, []⟩, none, none⟩ []]⟩)]
    "bad.py" rfl
  exact ⟨rfl, h.1, h.2.1, h.2.2 (by decide)⟩

theorem pruneDocstring_idem (d : Option String) :
    pruneDocstring (pruneDocstring d) = pruneDocstring d := by
  cases d with
  | none => rfl
  | some s =>
      by_cases hs : s = "" <;> simp [pruneDocstring, hs]

theorem pruneFuncInfo_idem (fi : FuncInfo) :
    pruneFuncInfo (pruneFuncInfo fi) = pruneFuncInfo fi := by
  simp [pruneFuncInfo, pruneDocstring_idem]

theorem pruneFunctions_cons (k : String) (fi : FuncInfo) (xs : List (String × FuncInfo)) :
    pruneFunctions ((k, fi) :: xs) =
      if FuncInfo.isEmpty (pruneFuncInfo fi) then pruneFunctions xs
      else (k, pruneFuncInfo fi) :: pruneFunctions xs := by
  unfold pruneFunctions
  simp only [List.map_cons, List.filter_cons]
  cases he : FuncInfo.isEmpty (pruneFuncInfo fi) <;> simp [he]

theorem pruneFunctions_idem (fs : List (String × FuncInfo)) :
    pruneFunctions (pruneFunctions fs) = pruneFunctions fs := by
  induction fs with
  | nil => rfl
  | cons x xs ih =>
      obtain ⟨k, fi⟩ := x
      rw [pruneFunctions_cons]
      by_cases he : FuncInfo.isEmpty (pruneFuncInfo fi) = true
      · rw [if_pos he, ih]
      · rw [if_neg he, pruneFunctions_cons, pruneFuncInfo_idem, if_neg he, ih]

theorem pruneClassEntry_idem (c : ClassEntry) :
    pruneClassEntry (pruneClassEntry c) = pruneClassEntry c := by
  unfold pruneClassEntry
  cases hm : c.methods with
  | none => simp [pruneDocstring_idem]
  | some ms =>
      by_cases hms : (pruneFunctions ms).isEmpty = true <;>
        simp [hms, pruneFunctions_idem, pruneDocstring_idem]

theorem pruneClasses_cons (k : String) (c : ClassEntry) (xs : List (String × ClassEntry)) :
    pruneClasses ((k, c) :: xs) =
      if ClassEntry.isEmpty (pruneClassEntry c) then pruneClasses xs
      else (k, pruneClassEntry c) :: pruneClasses xs := by
  unfold pruneClasses
  simp only [List.map_cons, List.filter_cons]
  cases he : ClassEntry.isEmpty (pruneClassEntry c) <;> simp [he]

theorem pruneClasses_idem (cs : List (String × ClassEntry)) :
    pruneClasses (pruneClasses cs) = pruneClasses cs := by
  induction cs with
  | nil => rfl
  | cons x xs ih =>
      obtain ⟨k, c⟩ := x
      rw [pruneClasses_cons]
      by_cases he : ClassEntry.isEmpty (pruneClassEntry c) = true
      · rw [if_pos he, ih]
      · rw [if_neg he, pruneClasses_cons, pruneClassEntry_idem, if_neg he, ih]

/-- C2 as stated fails: the pruning pass is not idempotent.  On a module_info
holding one surviving function and one class that the cleanup deletes, the
first run leaves the classes key holding an empty dict (its emptiness was
checked before the cleanup), and the second run removes that key, so the
results differ. -/
theorem prune_not_idempotent :
    ¬((pruneModuleInfo
          { functions := some [("f", ⟨some "()", none⟩)],
            classes := some [("C", ⟨some [], none⟩)] }).bind pruneModuleInfo =
        pruneModuleInfo
          { functions := some [("f", ⟨some "()", none⟩)],
            classes := some [("C", ⟨some [], none⟩)] }) := by
  decide

/-- C2 amended: a second run of the pruning pass agrees with the first
except at the module's top-level keys: it raises KeyError (none) when the
first run removed the functions or classes key, and otherwise only deletes
whichever of those keys the first run left holding an empty dict. -/
theorem pruneModuleInfo_second_run (m m1 : ModuleInfo)
    (h : pruneModuleInfo m = some m1) :
    pruneModuleInfo m1 =
      if m1.functions = none ∨ m1.classes = none then none
      else some (dropEmptyTop m1) := by
  unfold pruneModuleInfo at h
  cases hf : m.functions with
  | none => rw [hf] at h; cases h
  | some fs =>
      cases hc : m.classes with
      | none => rw [hf, hc] at h; cases h
      | some cs =>
          rw [hf, hc] at h
          injection h with h1
          subst h1
          by_cases hfs : fs.isEmpty = true
          · simp [pruneModuleInfo, pruneCore, hfs]
          · by_cases hcs : cs.isEmpty = true
            · simp [pruneModuleInfo, pruneCore, hfs, hcs]
            · have hm1 : pruneCore fs cs =
                  { functions := some (pruneFunctions fs),
                    classes := some (pruneClasses cs) } := by
                unfold pruneCore
                simp [hfs, hcs]
              rw [hm1]
              simp only [pruneModuleInfo, pruneCore, dropEmptyTop, List.isEmpty_iff]
              simp only [Option.some.injEq, reduceCtorEq, or_self, if_false]
              congr 1 <;> split_ifs <;>
                simp [pruneFunctions_idem, pruneClasses_idem]

/-- C2 amended witness: on a module_info whose pruned form keeps both keys
nonempty, the second run changes nothing. -/
theorem pruneModuleInfo_second_run_witness :
    pruneModuleInfo
        ⟨some [("f", ⟨some "()", none⟩)],
          some [("C", ⟨some [("m", ⟨some "()", none⟩)], none⟩)]⟩ =
      some (⟨some [("f", ⟨some "()", none⟩)],
        some [("C", ⟨some [("m", ⟨some "()", none⟩)], none⟩)]⟩ : ModuleInfo) ∧
    pruneModuleInfo
        ⟨some [("f", ⟨some "()", none⟩)],
          some [("C", ⟨some [("m", ⟨some "()", none⟩)], none⟩)]⟩ =
      (if (⟨some [("f", ⟨some "()", none⟩)],
            some [("C", ⟨some [("m", ⟨some "()", none⟩)], none⟩)]⟩ :
              ModuleInfo).functions = none ∨
          (⟨some [("f", ⟨some "()", none⟩)],
            some [("C", ⟨some [("m", ⟨some "()", none⟩)], none⟩)]⟩ :
              ModuleInfo).classes = none then none
        else some (dropEmptyTop
          ⟨some [("f", ⟨some "()", none⟩)],
            some [("C", ⟨some [("m", ⟨some "()", none⟩)], none⟩)]⟩)) :=
  ⟨by decide,
    pruneModuleInfo_second_run
      ⟨some [("f", ⟨some "()", none⟩)],
        some [("C", ⟨some [("m", ⟨some "()", none⟩)], none⟩)]⟩
      ⟨some [("f", ⟨some "()", none⟩)],
        some [("C", ⟨some [("m", ⟨some "()", none⟩)], none⟩)]⟩
      (by decide)⟩

/-- C1: the pruning invariant fails on the code.  At the input module
`class C: pass` the class is deleted during cleanup, but the classes key was
emptiness-checked before that cleanup, so the extractor returns a module_info
whose classes key holds an empty dict: an empty container survives pruning. -/
theorem prune_retains_empty_classes :
    extract_signatures_with_ast ⟨some [Stmt.classDef "C" none []]⟩ true true =
      { functions := none, classes := some [] } ∧
    (extract_signatures_with_ast ⟨some [Stmt.classDef "C" none []]⟩ true true).noEmptyNodes
      = false :=
  ⟨by decide, by decide⟩

theorem dictLookupInt_eq_specTrailingDefault (a : PyArguments)
    (hD : a.defaults.length ≤ a.posonlyargs.length + a.args.length)
    (i : Nat) (hi : i < a.args.length) :
    dictLookupInt (defaultsAList a) (i : Int) = specTrailingDefault a i := by
  rw [dictLookupInt_defaultsAList]
  simp only [specTrailingDefault]
  split_ifs <;> first | rfl | (congr 1; omega)

/-- C10 as stated is refuted: there is no callable on which the renderer
attaches a default to a plain positional parameter other than the one the
combined trailing-default rule dictates — the plain-args-only index table and
the combined defaults list offset each other exactly. -/
theorem no_posonly_default_misattachment :
    ¬∃ (a : PyArguments) (i : Nat),
        a.defaults.length ≤ a.posonlyargs.length + a.args.length ∧
        i < a.args.length ∧
        dictLookupInt (defaultsAList a) (i : Int) ≠ specTrailingDefault a i := by
  rintro ⟨a, i, hD, hi, hne⟩
  exact hne (dictLookupInt_eq_specTrailingDefault a hD i hi)

/-- C10 amended: positional-only parameters are absent from the rendered
signature (rendering is invariant under the posonlyargs field), and although
the default-index table is computed from the plain positional count while the
declared defaults span positional-only and plain parameters together, the
offsets cancel: every plain positional parameter receives exactly the default
the spec's combined trailing rule assigns it (defaults belonging to
positional-only parameters land on negative keys and are dropped). -/
theorem posonly_dropped_defaults_aligned (f : FunctionDef) (b : Bool) (l : List PyArg)
    (i : Nat)
    (hD : f.args.defaults.length ≤ f.args.posonlyargs.length + f.args.args.length)
    (hi : i < f.args.args.length) :
    get_function_signature { f with args := { f.args with posonlyargs := l } } b =
      get_function_signature f b ∧
    dictLookupInt (defaultsAList f.args) (i : Int) = specTrailingDefault f.args i :=
  ⟨rfl, dictLookupInt_eq_specTrailingDefault f.args hD i hi⟩

/-- C10 amended witness: def f(x=1, /, y=2) — the plain parameter y receives
default 2 both under the renderer and under the combined trailing rule. -/
theorem posonly_dropped_defaults_aligned_witness :
    (⟨[⟨"x", none⟩], [⟨"y", none⟩], none, [], [], none, [⟨some "1"⟩, ⟨some "2"⟩]⟩ :
        PyArguments).defaults.length ≤
      (⟨[⟨"x", none⟩], [⟨"y", none⟩], none, [], [], none, [⟨some "1"⟩, ⟨some "2"⟩]⟩ :
        PyArguments).posonlyargs.length +
      (⟨[⟨"x", none⟩], [⟨"y", none⟩], none, [], [], none, [⟨some "1"⟩, ⟨some "2"⟩]⟩ :
        PyArguments).args.length ∧
    (0 : Nat) < (⟨[⟨"x", none⟩], [⟨"y", none⟩], none, [], [], none,
      [⟨some "1"⟩, ⟨some "2"⟩]⟩ : PyArguments).args.length ∧
    (get_function_signature
        { (⟨"f", ⟨[⟨"x", none⟩], [⟨"y", none⟩], none, [], [], none,
            [⟨some "1"⟩, ⟨some "2"⟩]⟩, none, none⟩ : FunctionDef) with
          args := { (⟨[⟨"x", none⟩], [⟨"y", none⟩], none, [], [], none,
            [⟨some "1"⟩, ⟨some "2"⟩]⟩ : PyArguments) with posonlyargs := [] } } false =
      get_function_signature ⟨"f", ⟨[⟨"x", none⟩], [⟨"y", none⟩], none, [], [], none,
        [⟨some "1"⟩, ⟨some "2"⟩]⟩, none, none⟩ false ∧
    dictLookupInt (defaultsAList ⟨[⟨"x", none⟩], [⟨"y", none⟩], none, [], [], none,
        [⟨some "1"⟩, ⟨some "2"⟩]⟩) ((0 : Nat) : Int) =
      specTrailingDefault ⟨[⟨"x", none⟩], [⟨"y", none⟩], none, [], [], none,
        [⟨some "1"⟩, ⟨some "2"⟩]⟩ 0) :=
  ⟨by decide, by decide,
    posonly_dropped_defaults_aligned
      ⟨"f", ⟨[⟨"x", none⟩], [⟨"y", none⟩], none, [], [], none,
        [⟨some "1"⟩, ⟨some "2"⟩]⟩, none, none⟩
      false [] 0 (by decide) (by decide)⟩
